import Mathlib

/-!
Verification development for the oncology research agent pipeline.

Shallow embedding of the decision and persistence logic of the repository:
the recommendation scorer (agents/clinical_reasoner.py), the physician
review gate (agents/doctor_agent.py), the orchestrator wiring
(agents/supervisor.py), the dual-source literature aggregation
(agents/literature_agent.py) and the append-only memory service
(memory/memory_service.py).  Python floats are modelled as rationals,
dictionaries with fixed key sets as structures, optional dictionary keys
as Option, and exceptions as explicit Except / injected failure flags.
-/

namespace CancerResearch

/-! ## Clinical reasoner (agents/clinical_reasoner.py) -/

/-- The evidence dictionary assembled by the supervisor and passed to
`ClinicalReasoner.generate_recommendation`.  The two medians are nullable
(None when the survival curve never crossed 0.5, or when the analysis
stage failed). -/
structure Evidence where
  p_value : ℚ
  total_papers : ℕ
  median_pembrolizumab : Option ℚ
  median_nivolumab : Option ℚ
deriving Repr

/-- A GRADE-style recommendation, the return value of
`generate_recommendation`.  The rationale string interpolates a
float-formatted p-value and is not needed by any claim, so it is left out
of the model. -/
structure Recommendation where
  recommendation : String
  confidence_score : ℚ
  strength_of_recommendation : String
  grade : String
deriving Repr, DecidableEq

/-- The fixed recommendation text returned by the reasoner. -/
def recommendationText : String :=
  "Pembrolizumab is preferred over nivolumab as first-line therapy in advanced melanoma"

/-- Embedding of the line
`median_os_diff = (evidence.get("median_pembrolizumab", 0) or 0) - (evidence.get("median_nivolumab", 0) or 0)`:
a missing key or a Python-falsy value (None, 0) is coerced to 0 before
subtraction. -/
def medianOsDiff (e : Evidence) : ℚ :=
  e.median_pembrolizumab.getD 0 - e.median_nivolumab.getD 0

/-- Embedding of `ClinicalReasoner.generate_recommendation`: three
confidence tiers evaluated in order, first match wins. -/
def generate_recommendation (e : Evidence) : Recommendation :=
  let p_value := e.p_value
  let papers_found := e.total_papers
  let median_os_diff := medianOsDiff e
  if p_value < 0.01 ∧ papers_found ≥ 10 ∧ median_os_diff ≥ 12 then
    { recommendation := recommendationText
      confidence_score := 0.94
      strength_of_recommendation := "Strong recommendation"
      grade := "1A" }
  else if p_value < 0.05 ∧ papers_found ≥ 8 then
    { recommendation := recommendationText
      confidence_score := 0.87
      strength_of_recommendation := "Moderate recommendation"
      grade := "1B" }
  else
    { recommendation := recommendationText
      confidence_score := 0.62
      strength_of_recommendation := "Weak recommendation"
      grade := "2C" }

/-! ## Doctor agent (agents/doctor_agent.py) -/

/-- The `ai_output` dictionary passed to
`DoctorAgent.review_recommendation`.  The code reads `recommendation`
with mandatory lookup, and `confidence_score` / `p_value` through `get`
with defaults 0.87 and 1.0, so the latter two are optional. -/
structure AiOutput where
  recommendation : String
  confidence_score : Option ℚ
  p_value : Option ℚ
deriving Repr

/-- The review dictionary produced by the doctor agent. -/
structure Review where
  doctor_decision : String
  doctor_name : String
  timestamp : String
  confidence_score : ℚ
  comment : String
  final_recommendation : String
deriving Repr

/-- Model of Python `round(x, 3)` on rationals (Python rounds floats
half-to-even; only the half-thousandth tie cases differ, and no claim
touches them). -/
def pyRound3 (q : ℚ) : ℚ := round (q * 1000) / 1000

/-- Fixed comment issued when confidence is below the 0.70 gate. -/
def lowConfidenceComment : String :=
  "Confidence too low. Recommend reducing pembrolizumab dose or adding corticosteroid prophylaxis."

/-- Fixed comment issued when the p-value exceeds 0.05. -/
def weakEvidenceComment : String :=
  "Evidence not strong enough for first-line recommendation. Suggest clinical trial enrollment."

/-- Fixed comment issued on approval. -/
def approveComment : String :=
  "Strong evidence and acceptable safety profile. Proceed with recommendation."

/-- Embedding of `DoctorAgent.review_recommendation`.  The reviewer name
holds an en dash in the source file, rendered here as a hyphen. -/
def review_recommendation (ai_output : AiOutput) : Review :=
  let confidence := ai_output.confidence_score.getD 0.87
  let dc : String × String :=
    if confidence < 0.70 then
      ("modify", lowConfidenceComment)
    else if ai_output.p_value.getD 1.0 > 0.05 then
      ("modify", weakEvidenceComment)
    else
      ("approve", approveComment)
  { doctor_decision := dc.1
    doctor_name := "Dr. Sarah Johnson, MD - Medical Oncology"
    timestamp := "2025-11-27 14:32"
    confidence_score := pyRound3 confidence
    comment := dc.2
    final_recommendation := if dc.1 = "approve" then ai_output.recommendation else dc.2 }

/-! ## Literature agent (agents/literature_agent.py) -/

/-- A paper record as passed around by the literature agent.  The
aggregation logic only ever reads or writes the `source` key of these
dictionaries; every other field (title, authors, abstract, identifiers,
year, ...) is carried through untouched and is modelled by the opaque
`payload` string together with the `title`. -/
structure Paper where
  title : String
  source : Option String
  payload : String
deriving Repr, DecidableEq

/-- Embedding of the dict merge `{"source": "PubMed", **p}`: the spread
of `p` would override the tag, so a pre-existing `source` key wins;
clinical-index papers never carry one. -/
def tagPubMed (p : Paper) : Paper :=
  match p.source with
  | none => { p with source := some "PubMed" }
  | some _ => p

/-- The result dictionary of one external source call (`search_pubmed` or
`search_scholar`): a `status` string and a list of papers.  Both tools
catch their own exceptions internally and return `status` distinct from
"success" with an empty list on failure, so a plain record suffices. -/
structure SourceResult where
  status : String
  papers : List Paper
deriving Repr

/-- The success payload of `LiteratureAgent.query` (the keys
`sources_used` and `model_used` are constants in the code and are
omitted). -/
structure LitSuccess where
  query : String
  total_found : ℕ
  papers : List Paper
  pubmed_count : ℕ
  scholar_count : ℕ
  analysis : String
deriving Repr

/-- Overall result of `LiteratureAgent.query`: the success dictionary, or
the `status: error` dictionary carrying only the exception message and
the original query. -/
inductive QueryResult where
  | success (r : LitSuccess)
  | error (error : String) (query : String)
deriving Repr

/-- The fixed message emitted when both sources returned zero papers. -/
def noResultsMessage : String :=
  "No publications found matching the query criteria."

/-- Model of the Python `" and ".join` applied to the parts list. -/
def joinAnd : List String → String
  | [] => ""
  | [x] => x
  | x :: xs => x ++ " and " ++ joinAnd xs

/-- Embedding of `LiteratureAgent._generate_summary`. -/
def generate_summary (pubmed_count scholar_count : ℕ) : String :=
  let parts : List String :=
    (if pubmed_count > 0 then [toString pubmed_count ++ " publications from PubMed"] else []) ++
    (if scholar_count > 0 then [toString scholar_count ++ " from Google Scholar"] else [])
  if parts = [] then
    noResultsMessage
  else
    "Retrieved " ++ joinAnd parts ++
      " covering recent advances in the specified research area (2023-2025)."

/-- Embedding of `LiteratureAgent.query`.  The two per-source results are
inputs (the external calls fail closed inside the tools), and
`aggregation_exc` injects an exception escaping to the outer
`try/except` of the method (the per-source calls never raise, so any
such exception comes from the aggregation itself). -/
def LiteratureAgent.query (user_query : String)
    (pubmed_result scholar_result : SourceResult)
    (aggregation_exc : Option String) : QueryResult :=
  match aggregation_exc with
  | some exc => .error exc user_query
  | none =>
    let pubmed_papers :=
      if pubmed_result.status = "success" then pubmed_result.papers else []
    let scholar_papers :=
      if scholar_result.status = "success" then scholar_result.papers else []
    let all_papers := pubmed_papers.map tagPubMed ++ scholar_papers
    let summary := generate_summary pubmed_papers.length scholar_papers.length
    .success
      { query := user_query
        total_found := all_papers.length
        papers := all_papers.take 20
        pubmed_count := pubmed_papers.length
        scholar_count := scholar_papers.length
        analysis := summary }

/-! ## Analysis agent (agents/analysis_agent.py) -/

/-- Outcome of `AnalysisAgent.analyze_survival`: either the success
dictionary (the formatted `summary` string and `figure_path` are not
needed by any claim and are omitted) or the error dictionary. -/
inductive AnalysisResult where
  | success (p_value : ℚ) (median_pembrolizumab median_nivolumab : Option ℚ)
  | error (message : String)
deriving Repr

/-- Model of `analysis_result.get("p_value", 1.0)`: the error dictionary
has no such key, so the default 1.0 applies. -/
def AnalysisResult.get_p_value : AnalysisResult → ℚ
  | .success p _ _ => p
  | .error _ => 1.0

/-- Model of `analysis_result.get("median_pembrolizumab")`. -/
def AnalysisResult.get_median_pembrolizumab : AnalysisResult → Option ℚ
  | .success _ m _ => m
  | .error _ => none

/-- Model of `analysis_result.get("median_nivolumab")`. -/
def AnalysisResult.get_median_nivolumab : AnalysisResult → Option ℚ
  | .success _ _ m => m
  | .error _ => none

/-- Model of `lit_result.get("total_found", 0)`: the error dictionary has
no such key, so the default 0 applies. -/
def QueryResult.get_total_found : QueryResult → ℕ
  | .success r => r.total_found
  | .error _ _ => 0

/-! ## Risk calculator (tools/risk_calculator.py) -/

/-- The static irAE risk table. -/
structure RiskProfile where
  any_grade_irae : String
  grade_3_4_irae : String
  endocrine_irae : String
  pneumonitis : String
  colitis : String
  hepatitis : String
  recommendation : String
deriving Repr

/-- Embedding of `calculate_irae_risk`, a constant lookup table. -/
def calculate_irae_risk : RiskProfile :=
  { any_grade_irae := "58%"
    grade_3_4_irae := "18%"
    endocrine_irae := "42%"
    pneumonitis := "7%"
    colitis := "4%"
    hepatitis := "6%"
    recommendation := "Initiate thyroid function monitoring at baseline and every 6 weeks" }

/-! ## Supervisor (agents/supervisor.py) -/

/-- The dictionary returned by `OncologySupervisor.process_query`. -/
structure RunResult where
  literature : QueryResult
  analysis : AnalysisResult
  recommendation : Recommendation
  doctor_review : Review
  risk_profile : RiskProfile
deriving Repr

/-- The evidence dictionary the supervisor assembles between the
Retrieve/Analyze stages and the Score stage (step 3 of
`process_query`). -/
def evidenceOf (lit_result : QueryResult) (analysis_result : AnalysisResult) : Evidence :=
  { p_value := analysis_result.get_p_value
    total_papers := lit_result.get_total_found
    median_pembrolizumab := analysis_result.get_median_pembrolizumab
    median_nivolumab := analysis_result.get_median_nivolumab }

/-- Embedding of `OncologySupervisor.process_query`.  The external world
enters through the per-source literature results, an optional
aggregation exception, and the analysis outcome; the printing side
effects are not modelled. -/
def process_query (user_query : String)
    (pubmed_result scholar_result : SourceResult)
    (aggregation_exc : Option String)
    (analysis_result : AnalysisResult) : RunResult :=
  let lit_result := LiteratureAgent.query user_query pubmed_result scholar_result aggregation_exc
  let evidence := evidenceOf lit_result analysis_result
  let recommendation := generate_recommendation evidence
  let doctor_review := review_recommendation
    { recommendation := recommendation.recommendation
      confidence_score := some recommendation.confidence_score
      p_value := some evidence.p_value }
  { literature := lit_result
    analysis := analysis_result
    recommendation := recommendation
    doctor_review := doctor_review
    risk_profile := calculate_irae_risk }

/-! ## JSON values and serialization (json.dumps / json.loads as used by
memory/memory_service.py)

The findings payload handed to `save_research` is an arbitrary structured
value; it is serialized with `json.dumps(..., ensure_ascii=False)` and
read back with `json.loads`.  The value space is modelled by `Json`
below; numbers are modelled as integers (the exact decimal rendering of
machine floats is outside the embedding).  `dumps` reproduces the format
the Python encoder emits with its default separators, and `loads` parses
exactly that grammar. -/

inductive Json where
  | null : Json
  | bool (b : Bool) : Json
  | num (n : ℤ) : Json
  | str (s : String) : Json
  | arr (elements : List Json) : Json
  | obj (fields : List (String × Json)) : Json

/-- The left curly bracket character (code 123). -/
def lcurly : Char := Char.ofNat 123

/-- The right curly bracket character (code 125). -/
def rcurly : Char := Char.ofNat 125

/-- Lower-case hexadecimal digit for a value below 16. -/
def hexDigitChar (n : ℕ) : Char :=
  Char.ofNat (if n < 10 then 48 + n else 87 + n)

/-- Escaping of one character inside a JSON string, as done by the Python
encoder with `ensure_ascii=False`: quote, backslash and the named control
characters get two-character escapes, the remaining control characters
get a `\u00xx` escape, everything else passes through. -/
def escapeChar (c : Char) : List Char :=
  if c = '"' then ['\\', '"']
  else if c = '\\' then ['\\', '\\']
  else if c = '\n' then ['\\', 'n']
  else if c = '\r' then ['\\', 'r']
  else if c = '\t' then ['\\', 't']
  else if c = Char.ofNat 8 then ['\\', 'b']
  else if c = Char.ofNat 12 then ['\\', 'f']
  else if c.toNat < 32 then
    ['\\', 'u', '0', '0', hexDigitChar (c.toNat / 16), hexDigitChar (c.toNat % 16)]
  else [c]

/-- A JSON string literal: quote, escaped characters, quote. -/
def encodeStringChars (s : String) : List Char :=
  '"' :: s.data.flatMap escapeChar ++ ['"']

/-- Decimal digit character for a value below 10. -/
def digitChar (d : ℕ) : Char := Char.ofNat (48 + d)

/-- Little-endian decimal digits with explicit fuel, so that the kernel
can evaluate it; agrees with `Nat.digits 10` when given enough fuel. -/
def natDigitsAux : ℕ → ℕ → List ℕ
  | 0, _ => []
  | fuel + 1, n => if n = 0 then [] else n % 10 :: natDigitsAux fuel (n / 10)

/-- Little-endian decimal digits of a natural number. -/
def natDigits (n : ℕ) : List ℕ := natDigitsAux n n

/-- Decimal rendering of a natural number, most significant digit
first. -/
def natChars (n : ℕ) : List Char :=
  if n = 0 then ['0'] else (natDigits n).reverse.map digitChar

/-- Decimal rendering of an integer as Python prints it. -/
def intChars (n : ℤ) : List Char :=
  if n < 0 then '-' :: natChars n.natAbs else natChars n.natAbs

/-- Characters of the serialized `null` keyword. -/
def nullChars : List Char := "null".data

/-- Characters of the serialized boolean keywords. -/
def boolChars (b : Bool) : List Char :=
  (if b then "true" else "false").data

mutual

/-- Characters of the serialized form of a JSON value, following the
Python encoder with default separators (", " between items, ": " between
key and value). -/
def dumpChars : Json → List Char
  | .null => nullChars
  | .bool b => boolChars b
  | .num n => intChars n
  | .str s => encodeStringChars s
  | .arr es => '[' :: dumpElems es ++ [']']
  | .obj fs => lcurly :: dumpFields fs ++ [rcurly]

/-- Serialized array elements, separated by ", ". -/
def dumpElems : List Json → List Char
  | [] => []
  | [e] => dumpChars e
  | e :: es => dumpChars e ++ ',' :: ' ' :: dumpElems es

/-- Serialized object fields, "key": value separated by ", ". -/
def dumpFields : List (String × Json) → List Char
  | [] => []
  | [(k, v)] => encodeStringChars k ++ ':' :: ' ' :: dumpChars v
  | (k, v) :: fs =>
    encodeStringChars k ++ ':' :: ' ' :: dumpChars v ++ ',' :: ' ' :: dumpFields fs

end

/-- Model of `json.dumps(x, ensure_ascii=False)`. -/
def dumps (j : Json) : String := String.mk (dumpChars j)

/-- Value of a lower-case hexadecimal digit character. -/
def parseHexDigit (c : Char) : Option ℕ :=
  if 48 ≤ c.toNat ∧ c.toNat ≤ 57 then some (c.toNat - 48)
  else if 97 ≤ c.toNat ∧ c.toNat ≤ 102 then some (c.toNat - 87)
  else none

/-- Parse the body of a JSON string literal up to the closing quote,
undoing `escapeChar`; returns the decoded characters and the remaining
input. -/
def parseStringBody : List Char → Option (List Char × List Char)
  | [] => none
  | c :: rest =>
    if c = '"' then some ([], rest)
    else if c = '\\' then
      match rest with
      | [] => none
      | e :: rest2 =>
        if e = '"' then (parseStringBody rest2).map fun p => ('"' :: p.1, p.2)
        else if e = '\\' then (parseStringBody rest2).map fun p => ('\\' :: p.1, p.2)
        else if e = 'n' then (parseStringBody rest2).map fun p => ('\n' :: p.1, p.2)
        else if e = 'r' then (parseStringBody rest2).map fun p => ('\r' :: p.1, p.2)
        else if e = 't' then (parseStringBody rest2).map fun p => ('\t' :: p.1, p.2)
        else if e = 'b' then (parseStringBody rest2).map fun p => (Char.ofNat 8 :: p.1, p.2)
        else if e = 'f' then (parseStringBody rest2).map fun p => (Char.ofNat 12 :: p.1, p.2)
        else if e = 'u' then
          match rest2 with
          | h1 :: h2 :: h3 :: h4 :: rest3 =>
            match parseHexDigit h1, parseHexDigit h2, parseHexDigit h3, parseHexDigit h4 with
            | some a, some b, some c2, some d =>
              (parseStringBody rest3).map fun p =>
                (Char.ofNat (((a * 16 + b) * 16 + c2) * 16 + d) :: p.1, p.2)
            | _, _, _, _ => none
          | _ => none
        else none
    else (parseStringBody rest).map fun p => (c :: p.1, p.2)

/-- Whether a character is a decimal digit. -/
def isDigitChar (c : Char) : Prop := 48 ≤ c.toNat ∧ c.toNat ≤ 57

instance (c : Char) : Decidable (isDigitChar c) := by unfold isDigitChar; infer_instance

/-- Greedily consume decimal digits, returning their values most
significant first together with the remaining input. -/
def parseDigits : List Char → List ℕ × List Char
  | [] => ([], [])
  | c :: rest =>
    if isDigitChar c then
      let p := parseDigits rest
      ((c.toNat - 48) :: p.1, p.2)
    else ([], c :: rest)

/-- Parse a natural number literal (at least one digit). -/
def parseNat (cs : List Char) : Option (ℕ × List Char) :=
  match parseDigits cs with
  | ([], _) => none
  | (ds, rest) => some (Nat.ofDigits 10 ds.reverse, rest)

mutual

/-- Fuel-indexed parser for one JSON value. -/
def parseValue : ℕ → List Char → Option (Json × List Char)
  | 0, _ => none
  | _ + 1, [] => none
  | fuel + 1, c :: rest =>
    if c = 'n' then
      match rest with
      | 'u' :: 'l' :: 'l' :: r => some (.null, r)
      | _ => none
    else if c = 't' then
      match rest with
      | 'r' :: 'u' :: 'e' :: r => some (.bool true, r)
      | _ => none
    else if c = 'f' then
      match rest with
      | 'a' :: 'l' :: 's' :: 'e' :: r => some (.bool false, r)
      | _ => none
    else if c = '"' then
      (parseStringBody rest).map fun p => (.str (String.mk p.1), p.2)
    else if c = '[' then
      match rest with
      | ']' :: r => some (.arr [], r)
      | _ => (parseElems fuel rest).map fun p => (.arr p.1, p.2)
    else if c = lcurly then
      match rest with
      | r0 :: r =>
        if r0 = rcurly then some (.obj [], r)
        else (parseFields fuel (r0 :: r)).map fun p => (.obj p.1, p.2)
      | [] => none
    else if c = '-' then
      (parseNat rest).map fun p => (.num (-(p.1 : ℤ)), p.2)
    else if isDigitChar c then
      (parseNat (c :: rest)).map fun p => (.num (p.1 : ℤ), p.2)
    else none

/-- Fuel-indexed parser for a nonempty comma-separated element list,
consuming the closing square bracket. -/
def parseElems : ℕ → List Char → Option (List Json × List Char)
  | 0, _ => none
  | fuel + 1, cs =>
    match parseValue fuel cs with
    | none => none
    | some (v, r) =>
      match r with
      | ',' :: ' ' :: r2 => (parseElems fuel r2).map fun p => (v :: p.1, p.2)
      | ']' :: r2 => some ([v], r2)
      | _ => none

/-- Fuel-indexed parser for a nonempty comma-separated field list,
consuming the closing curly bracket. -/
def parseFields : ℕ → List Char → Option (List (String × Json) × List Char)
  | 0, _ => none
  | fuel + 1, cs =>
    match cs with
    | '"' :: cs1 =>
      match parseStringBody cs1 with
      | none => none
      | some (k, r1) =>
        match r1 with
        | ':' :: ' ' :: r2 =>
          match parseValue fuel r2 with
          | none => none
          | some (v, r3) =>
            match r3 with
            | ',' :: ' ' :: r4 =>
              (parseFields fuel r4).map fun p => ((String.mk k, v) :: p.1, p.2)
            | c4 :: r4 =>
              if c4 = rcurly then some ([(String.mk k, v)], r4) else none
            | [] => none
        | _ => none
    | _ => none

end

/-- Model of `json.loads` on the grammar the encoder emits: parse one
value and require the input to be fully consumed. -/
def loads (s : String) : Option Json :=
  match parseValue (s.length + 1) s.data with
  | some (v, []) => some v
  | _ => none

/-- Whether the input does not start with a digit; the greedy number
parser stops exactly at the end of a printed number when the following
characters satisfy this. -/
def sepStart : List Char → Prop
  | [] => True
  | c :: _ => ¬isDigitChar c

mutual

/-- A fuel amount sufficient for `parseValue` on the serialized form of
the value. -/
def fval : Json → ℕ
  | .null => 1
  | .bool _ => 1
  | .num _ => 1
  | .str _ => 1
  | .arr es => 1 + felems es
  | .obj fs => 1 + ffields fs

/-- A fuel amount sufficient for `parseElems` on serialized elements. -/
def felems : List Json → ℕ
  | [] => 0
  | e :: es => 1 + fval e + felems es

/-- A fuel amount sufficient for `parseFields` on serialized fields. -/
def ffields : List (String × Json) → ℕ
  | [] => 0
  | (_, v) :: fs => 1 + fval v + ffields fs

end

/-! ## Memory service (memory/memory_service.py) -/

/-- One row of the `research_memory` table.  The timestamp column is not
read by any claim and is omitted. -/
structure Row where
  id : ℕ
  session_id : String
  query : String
  cancer_type : String
  findings : String

/-- The backing table, rows in insertion order, together with the next
autoincrement id. -/
structure Store where
  rows : List Row
  next_id : ℕ

/-- Embedding of `OncologyMemoryService.save_research`: build the row,
add and commit inside try; on a storage failure the transaction is rolled
back (the stored rows stay as they were) and the exception is re-raised,
modelled by the `Except.error` component next to the unchanged store.
The failure is injected through `commit_fails`. -/
def save_research (st : Store) (session_id query cancer_type : String)
    (findings : Json) (commit_fails : Bool) : Except String ℕ × Store :=
  let entry : Row :=
    { id := st.next_id
      session_id := session_id
      query := query
      cancer_type := cancer_type
      findings := dumps findings }
  if commit_fails then
    (.error "storage failure", st)
  else
    (.ok entry.id, { rows := st.rows ++ [entry], next_id := st.next_id + 1 })

/-- Embedding of `OncologyMemoryService.save_doctor_review`: serialize
the review record dictionary and append it as a row with the fixed query
and domain labels; same rollback-and-reraise policy.  `now` stands for
`datetime.utcnow().isoformat()`. -/
def save_doctor_review (st : Store) (session_id decision doctor_name comment now : String)
    (commit_fails : Bool) : Except String ℕ × Store :=
  let record : Json :=
    .obj [("decision", .str decision), ("doctor", .str doctor_name),
          ("comment", .str comment), ("timestamp", .str now)]
  let entry : Row :=
    { id := st.next_id
      session_id := session_id
      query := "Physician Review"
      cancer_type := "clinical_decision"
      findings := dumps record }
  if commit_fails then
    (.error "storage failure", st)
  else
    (.ok entry.id, { rows := st.rows ++ [entry], next_id := st.next_id + 1 })

/-- The dictionary `get_session` builds from a row. -/
structure SessionView where
  id : ℕ
  query : String
  cancer_type : String
  findings : Option Json

/-- Embedding of `OncologyMemoryService.get_session`: `.first()` on the
filtered query without an `order_by` is modelled as the first matching
row in insertion order (the storage scan order).  A Python-falsy
(NULL or empty) findings column becomes the empty dictionary;
`json.loads` raising on an undecodable column is modelled by `none`. -/
def get_session (st : Store) (session_id : String) : Option SessionView :=
  (st.rows.find? fun r => r.session_id == session_id).map fun entry =>
    { id := entry.id
      query := entry.query
      cancer_type := entry.cancer_type
      findings := if entry.findings = "" then some (.obj []) else loads entry.findings }

/-! ## Claim theorems: scorer, gate, orchestrator -/

/-- C1: the recommendation scorer is a pure deterministic function of the
p-value, the paper count and the median-difference value, with tiers
evaluated in priority order, first match wins: tier one gives confidence
0.94, strength Strong, grade 1A; tier two gives 0.87, Moderate, 1B; the
fallback gives 0.62, Weak, 2C; and the three literal inputs (0.005, 12,
14), (0.03, 9, 3) and (0.2, 2, 0) land in grades 1A, 1B and 2C with the
corresponding confidences. -/
theorem C1_scorer_tiering (e : Evidence) :
    (e.p_value < 0.01 ∧ e.total_papers ≥ 10 ∧ medianOsDiff e ≥ 12 →
      generate_recommendation e =
        { recommendation := recommendationText, confidence_score := 0.94,
          strength_of_recommendation := "Strong recommendation", grade := "1A" }) ∧
    (¬(e.p_value < 0.01 ∧ e.total_papers ≥ 10 ∧ medianOsDiff e ≥ 12) →
      e.p_value < 0.05 ∧ e.total_papers ≥ 8 →
      generate_recommendation e =
        { recommendation := recommendationText, confidence_score := 0.87,
          strength_of_recommendation := "Moderate recommendation", grade := "1B" }) ∧
    (¬(e.p_value < 0.01 ∧ e.total_papers ≥ 10 ∧ medianOsDiff e ≥ 12) →
      ¬(e.p_value < 0.05 ∧ e.total_papers ≥ 8) →
      generate_recommendation e =
        { recommendation := recommendationText, confidence_score := 0.62,
          strength_of_recommendation := "Weak recommendation", grade := "2C" }) ∧
    generate_recommendation
        { p_value := 0.005, total_papers := 12,
          median_pembrolizumab := some 14, median_nivolumab := some 0 } =
      { recommendation := recommendationText, confidence_score := 0.94,
        strength_of_recommendation := "Strong recommendation", grade := "1A" } ∧
    generate_recommendation
        { p_value := 0.03, total_papers := 9,
          median_pembrolizumab := some 3, median_nivolumab := some 0 } =
      { recommendation := recommendationText, confidence_score := 0.87,
        strength_of_recommendation := "Moderate recommendation", grade := "1B" } ∧
    generate_recommendation
        { p_value := 0.2, total_papers := 2,
          median_pembrolizumab := some 0, median_nivolumab := some 0 } =
      { recommendation := recommendationText, confidence_score := 0.62,
        strength_of_recommendation := "Weak recommendation", grade := "2C" } := by
  refine ⟨fun h => ?_, fun h1 h2 => ?_, fun h1 h2 => ?_, ?_, ?_, ?_⟩
  · simp only [generate_recommendation]
    rw [if_pos h]
  · simp only [generate_recommendation]
    rw [if_neg h1, if_pos h2]
  · simp only [generate_recommendation]
    rw [if_neg h1, if_neg h2]
  · norm_num [generate_recommendation, medianOsDiff]
  · norm_num [generate_recommendation, medianOsDiff]
  · norm_num [generate_recommendation, medianOsDiff]

/-- Witness for C1 at the first literal input: tier one fires. -/
theorem C1_scorer_tiering_witness :
    generate_recommendation
        { p_value := 0.005, total_papers := 12,
          median_pembrolizumab := some 14, median_nivolumab := some 0 } =
      { recommendation := recommendationText, confidence_score := 0.94,
        strength_of_recommendation := "Strong recommendation", grade := "1A" } :=
  (C1_scorer_tiering _).1 (by norm_num [medianOsDiff])

/-- C2: the review gate is a pure deterministic function of the
recommendation text, the confidence and the p-value, with the
low-confidence rule first, then the weak-p-value rule, else approval;
and the three literal scenarios decide as specified. -/
theorem C2_review_gate_policy (rec : String) (conf p : ℚ) :
    (conf < 0.70 →
      (review_recommendation ⟨rec, some conf, some p⟩).doctor_decision = "modify" ∧
      (review_recommendation ⟨rec, some conf, some p⟩).comment = lowConfidenceComment) ∧
    (¬conf < 0.70 → p > 0.05 →
      (review_recommendation ⟨rec, some conf, some p⟩).doctor_decision = "modify" ∧
      (review_recommendation ⟨rec, some conf, some p⟩).comment = weakEvidenceComment) ∧
    (¬conf < 0.70 → ¬p > 0.05 →
      (review_recommendation ⟨rec, some conf, some p⟩).doctor_decision = "approve" ∧
      (review_recommendation ⟨rec, some conf, some p⟩).comment = approveComment) ∧
    (review_recommendation ⟨rec, some 0.65, some p⟩).doctor_decision = "modify" ∧
    (review_recommendation ⟨rec, some 0.9, some 0.1⟩).doctor_decision = "modify" ∧
    (review_recommendation ⟨rec, some 0.9, some 0.01⟩).doctor_decision = "approve" := by
  refine ⟨fun h => ?_, fun h1 h2 => ?_, fun h1 h2 => ?_, ?_, ?_, ?_⟩
  · simp [review_recommendation, h]
  · simp [review_recommendation, h1, h2]
  · simp [review_recommendation, h1, h2]
  · norm_num [review_recommendation]
  · norm_num [review_recommendation]
  · norm_num [review_recommendation]

/-- Witness for C2 at confidence 0.9 and p-value 0.01: approval. -/
theorem C2_review_gate_policy_witness :
    (review_recommendation ⟨"r", some (0.9 : ℚ), some 0.01⟩).doctor_decision = "approve" ∧
    (review_recommendation ⟨"r", some (0.9 : ℚ), some 0.01⟩).comment = approveComment :=
  ((C2_review_gate_policy "r" 0.9 0.01).2.2.1 (by norm_num) (by norm_num))

/-- C3: a failed Retrieve stage does not abort the run, the Score stage
sees a paper count of 0; a failed Analyze stage does not abort the run,
the Score stage sees p-value 1.0 and no arm medians; and for every
combination of stage outcomes the run still performs the Score and
Review stages on the assembled evidence. -/
theorem C3_stage_failures_absorbed :
    (∀ (q exc : String) (pr sr : SourceResult) (ana : AnalysisResult),
      (evidenceOf (LiteratureAgent.query q pr sr (some exc)) ana).total_papers = 0) ∧
    (∀ (lit : QueryResult) (msg : String),
      (evidenceOf lit (.error msg)).p_value = 1.0 ∧
      (evidenceOf lit (.error msg)).median_pembrolizumab = none ∧
      (evidenceOf lit (.error msg)).median_nivolumab = none) ∧
    (∀ (q : String) (pr sr : SourceResult) (exc : Option String) (ana : AnalysisResult),
      (process_query q pr sr exc ana).recommendation =
        generate_recommendation (evidenceOf (LiteratureAgent.query q pr sr exc) ana) ∧
      (process_query q pr sr exc ana).doctor_review =
        review_recommendation
          { recommendation :=
              (generate_recommendation
                (evidenceOf (LiteratureAgent.query q pr sr exc) ana)).recommendation
            confidence_score :=
              some (generate_recommendation
                (evidenceOf (LiteratureAgent.query q pr sr exc) ana)).confidence_score
            p_value :=
              some (evidenceOf (LiteratureAgent.query q pr sr exc) ana).p_value }) :=
  ⟨fun _ _ _ _ _ => rfl, fun _ _ => ⟨rfl, rfl, rfl⟩, fun _ _ _ _ _ => ⟨rfl, rfl⟩⟩

/-- C6: the final recommendation field of the review equals the input
recommendation text exactly when the decision is approval, and equals
the modification comment otherwise. -/
theorem C6_final_recommendation_conflation (i : AiOutput) :
    ((review_recommendation i).doctor_decision = "approve" →
      (review_recommendation i).final_recommendation = i.recommendation) ∧
    ((review_recommendation i).doctor_decision ≠ "approve" →
      (review_recommendation i).final_recommendation = (review_recommendation i).comment) := by
  simp only [review_recommendation]
  generalize (if i.confidence_score.getD 0.87 < 0.70 then ("modify", lowConfidenceComment)
    else if i.p_value.getD 1.0 > 0.05 then ("modify", weakEvidenceComment)
    else ("approve", approveComment)) = dc
  by_cases hd : dc.1 = "approve"
  · exact ⟨fun _ => by simp [hd], fun hcon => absurd hd hcon⟩
  · exact ⟨fun hcon => absurd hcon hd, fun _ => by simp [hd]⟩

/-- Witness for C6 at an approving input and at a modifying input. -/
theorem C6_final_recommendation_conflation_witness :
    (review_recommendation ⟨"txt", some (0.9 : ℚ), some 0.01⟩).final_recommendation = "txt" ∧
    (review_recommendation ⟨"txt", some (0.6 : ℚ), some 0.01⟩).final_recommendation =
      (review_recommendation ⟨"txt", some (0.6 : ℚ), some 0.01⟩).comment :=
  ⟨(C6_final_recommendation_conflation ⟨"txt", some 0.9, some 0.01⟩).1
      (by norm_num [review_recommendation]),
   (C6_final_recommendation_conflation ⟨"txt", some 0.6, some 0.01⟩).2
      (by norm_num [review_recommendation]; decide)⟩

/-- C10: as wired by the orchestrator (the scorer confidence and the same
p-value are handed to the gate), the review decision is approval exactly
when the recommendation grade is 1A or 1B; every 2C recommendation is
modified. -/
theorem C10_approve_iff_grade_1A_or_1B (q : String) (pr sr : SourceResult)
    (exc : Option String) (ana : AnalysisResult) :
    ((process_query q pr sr exc ana).doctor_review.doctor_decision = "approve" ↔
      (process_query q pr sr exc ana).recommendation.grade = "1A" ∨
      (process_query q pr sr exc ana).recommendation.grade = "1B") ∧
    ((process_query q pr sr exc ana).recommendation.grade = "2C" →
      (process_query q pr sr exc ana).doctor_review.doctor_decision = "modify") := by
  simp only [process_query]
  generalize evidenceOf (LiteratureAgent.query q pr sr exc) ana = e
  by_cases h1 : e.p_value < 0.01 ∧ e.total_papers ≥ 10 ∧ medianOsDiff e ≥ 12
  · have hp : ¬e.p_value > 0.05 := by
      have h := h1.1
      rw [not_lt]
      have : (0.01 : ℚ) ≤ 0.05 := by norm_num
      linarith
    simp only [generate_recommendation]
    rw [if_pos h1]
    simp only [review_recommendation, Option.getD_some]
    rw [if_neg (by norm_num : ¬(0.94 : ℚ) < 0.70), if_neg hp]
    exact ⟨by simp, fun habs => absurd habs (by decide)⟩
  · by_cases h2 : e.p_value < 0.05 ∧ e.total_papers ≥ 8
    · have hp : ¬e.p_value > 0.05 := by
        rw [not_lt]
        exact le_of_lt h2.1
      simp only [generate_recommendation]
      rw [if_neg h1, if_pos h2]
      simp only [review_recommendation, Option.getD_some]
      rw [if_neg (by norm_num : ¬(0.87 : ℚ) < 0.70), if_neg hp]
      exact ⟨by simp, fun habs => absurd habs (by decide)⟩
    · simp only [generate_recommendation]
      rw [if_neg h1, if_neg h2]
      simp only [review_recommendation, Option.getD_some]
      rw [if_pos (by norm_num : (0.62 : ℚ) < 0.70)]
      refine ⟨⟨fun h => absurd h (by decide), fun h => ?_⟩, fun _ => rfl⟩
      rcases h with h | h <;> exact absurd h (by decide)

/-- Witness for C10: a run where every upstream stage failed lands in
grade 2C and is modified. -/
theorem C10_approve_iff_grade_1A_or_1B_witness :
    (process_query "q" ⟨"error", []⟩ ⟨"error", []⟩ none
      (.error "boom")).doctor_review.doctor_decision = "modify" :=
  (C10_approve_iff_grade_1A_or_1B "q" ⟨"error", []⟩ ⟨"error", []⟩ none (.error "boom")).2
    (by norm_num [process_query, evidenceOf, generate_recommendation, LiteratureAgent.query,
          AnalysisResult.get_p_value, QueryResult.get_total_found,
          AnalysisResult.get_median_pembrolizumab, AnalysisResult.get_median_nivolumab,
          medianOsDiff])

/-! ## Claim theorems: literature aggregation -/

/-- A summary starting with the Retrieved prefix is never the fixed
no-results message. -/
theorem retrieved_ne_noResults (s : String) :
    "Retrieved " ++ s ≠ noResultsMessage := by
  intro h
  have h2 := congrArg (fun t => t.data.head?) h
  simp only [String.data_append, List.cons_append, List.head?_cons] at h2
  exact absurd h2 (by decide)

/-- C4: a successful search returns exactly min(20, pubmed + scholar)
papers, the clinical-source papers (tagged) in original order followed by
the academic-source papers in original order, truncated to 20, while the
reported per-source counts are the pre-truncation counts and total_found
is their sum. -/
theorem C4_aggregation_order (q : String) (pr sr : SourceResult) (r : LitSuccess)
    (h : LiteratureAgent.query q pr sr none = .success r) :
    r.total_found = r.pubmed_count + r.scholar_count ∧
    r.pubmed_count = (if pr.status = "success" then pr.papers else []).length ∧
    r.scholar_count = (if sr.status = "success" then sr.papers else []).length ∧
    r.papers.length = min 20 (r.pubmed_count + r.scholar_count) ∧
    r.papers = ((if pr.status = "success" then pr.papers else []).map tagPubMed ++
        (if sr.status = "success" then sr.papers else [])).take 20 ∧
    (r.pubmed_count ≤ 20 →
      r.papers.take r.pubmed_count =
        (if pr.status = "success" then pr.papers else []).map tagPubMed) := by
  simp only [LiteratureAgent.query, QueryResult.success.injEq] at h
  subst h
  refine ⟨by simp, by simp, rfl, by simp, rfl, fun hle => ?_⟩
  dsimp only at hle ⊢
  rw [List.take_take, min_eq_left hle]
  exact List.take_left' (by rw [List.length_map])

/-- Witness for C4: one clinical paper, the academic source failed. -/
theorem C4_aggregation_order_witness :
    LiteratureAgent.query "x" ⟨"success", [⟨"T1", none, "p1"⟩]⟩ ⟨"error", []⟩ none =
      QueryResult.success
        { query := "x", total_found := 1,
          papers := [⟨"T1", some "PubMed", "p1"⟩],
          pubmed_count := 1, scholar_count := 0,
          analysis := generate_summary 1 0 } ∧
    [(⟨"T1", some "PubMed", "p1"⟩ : Paper)].take 1 = [⟨"T1", some "PubMed", "p1"⟩] := by
  refine ⟨rfl, ?_⟩
  have h := C4_aggregation_order "x" ⟨"success", [⟨"T1", none, "p1"⟩]⟩ ⟨"error", []⟩ _ rfl
  exact h.2.2.2.2.2 (by simp)

/-- C5: an erroring source contributes zero papers while the other
source is kept and the overall status stays success; only an exception
in the aggregation itself produces the error result carrying the message
and the query, with no papers. -/
theorem C5_per_source_failure_closed (q : String) (pr sr : SourceResult) :
    (pr.status ≠ "success" →
      ∃ r, LiteratureAgent.query q pr sr none = .success r ∧
        r.pubmed_count = 0 ∧
        r.papers = (if sr.status = "success" then sr.papers else []).take 20 ∧
        r.scholar_count = (if sr.status = "success" then sr.papers else []).length) ∧
    (sr.status ≠ "success" →
      ∃ r, LiteratureAgent.query q pr sr none = .success r ∧
        r.scholar_count = 0 ∧
        r.papers = ((if pr.status = "success" then pr.papers else []).map tagPubMed).take 20 ∧
        r.pubmed_count = (if pr.status = "success" then pr.papers else []).length) ∧
    (∀ exc : String, LiteratureAgent.query q pr sr (some exc) = .error exc q) := by
  refine ⟨fun hpf => ?_, fun hsf => ?_, fun _ => rfl⟩
  · refine ⟨_, rfl, ?_, ?_, rfl⟩
    · simp [LiteratureAgent.query, if_neg hpf]
    · simp [LiteratureAgent.query, if_neg hpf]
  · refine ⟨_, rfl, ?_, ?_, ?_⟩
    · simp [LiteratureAgent.query, if_neg hsf]
    · simp [LiteratureAgent.query, if_neg hsf]
    · simp [LiteratureAgent.query]

/-- Witness for C5: the clinical source failed, the academic source
returned one paper; the aggregate keeps it and stays successful. -/
theorem C5_per_source_failure_closed_witness :
    ∃ r, LiteratureAgent.query "x" ⟨"error", []⟩
        ⟨"success", [⟨"T2", some "Google Scholar", "p2"⟩]⟩ none = .success r ∧
      r.pubmed_count = 0 ∧
      r.papers = (if ("success" : String) = "success"
        then [(⟨"T2", some "Google Scholar", "p2"⟩ : Paper)] else []).take 20 ∧
      r.scholar_count = (if ("success" : String) = "success"
        then [(⟨"T2", some "Google Scholar", "p2"⟩ : Paper)] else []).length :=
  (C5_per_source_failure_closed "x" ⟨"error", []⟩
    ⟨"success", [⟨"T2", some "Google Scholar", "p2"⟩]⟩).1 (by decide)

/-- C9: the summary text equals the fixed no-results message exactly when
both per-source counts are zero (and then total_found is 0); otherwise it
lists each nonzero count, joined with "and" when both are nonzero. -/
theorem C9_summary_text (pc sc : ℕ) :
    (generate_summary pc sc = noResultsMessage ↔ pc = 0 ∧ sc = 0) ∧
    (pc ≠ 0 → sc ≠ 0 → generate_summary pc sc =
      "Retrieved " ++ (toString pc ++ " publications from PubMed" ++ " and " ++
        (toString sc ++ " from Google Scholar")) ++
        " covering recent advances in the specified research area (2023-2025).") ∧
    (pc ≠ 0 → sc = 0 → generate_summary pc sc =
      "Retrieved " ++ (toString pc ++ " publications from PubMed") ++
        " covering recent advances in the specified research area (2023-2025).") ∧
    (pc = 0 → sc ≠ 0 → generate_summary pc sc =
      "Retrieved " ++ (toString sc ++ " from Google Scholar") ++
        " covering recent advances in the specified research area (2023-2025).") ∧
    (∀ (q : String) (pr sr : SourceResult) (r : LitSuccess),
      LiteratureAgent.query q pr sr none = .success r →
      r.pubmed_count = 0 → r.scholar_count = 0 →
      r.analysis = noResultsMessage ∧ r.total_found = 0) := by
  have key : ∀ a b : String, "Retrieved " ++ a ++ b ≠ noResultsMessage := fun a b => by
    rw [String.append_assoc]
    exact retrieved_ne_noResults _
  refine ⟨?_, fun hp hs => ?_, fun hp hs => ?_, fun hp hs => ?_, ?_⟩
  · constructor
    · intro h
      by_cases hpc : pc = 0
      · by_cases hsc : sc = 0
        · exact ⟨hpc, hsc⟩
        · exfalso
          subst hpc
          rw [generate_summary] at h
          rw [if_neg (by decide : ¬(0 : ℕ) > 0), if_pos (Nat.pos_of_ne_zero hsc),
            List.nil_append, if_neg (by simp)] at h
          exact key _ _ h
      · exfalso
        rw [generate_summary] at h
        rw [if_pos (Nat.pos_of_ne_zero hpc), if_neg (by simp)] at h
        exact key _ _ h
    · rintro ⟨rfl, rfl⟩
      rfl
  · rw [generate_summary]
    simp only [Nat.pos_of_ne_zero hp, Nat.pos_of_ne_zero hs, if_true, List.cons_append,
      List.nil_append]
    rw [if_neg (by simp)]
    simp [joinAnd, String.append_assoc]
  · subst hs
    rw [generate_summary]
    simp only [Nat.pos_of_ne_zero hp, if_true, lt_irrefl, if_false, List.append_nil]
    rw [if_neg (by simp)]
    simp [joinAnd]
  · subst hp
    rw [generate_summary]
    simp only [Nat.pos_of_ne_zero hs, if_true, lt_irrefl, if_false, List.nil_append]
    rw [if_neg (by simp)]
    simp [joinAnd]
  · intro q pr sr r h hp0 hs0
    simp only [LiteratureAgent.query, QueryResult.success.injEq] at h
    subst h
    simp only [List.length_map] at hp0
    rw [List.length_eq_zero] at hp0 hs0
    simp [hp0, hs0, generate_summary]

/-- Witness for C9: counts three and two produce the joined summary. -/
theorem C9_summary_text_witness :
    generate_summary 3 2 =
      "Retrieved " ++ (toString (3 : ℕ) ++ " publications from PubMed" ++ " and " ++
        (toString (2 : ℕ) ++ " from Google Scholar")) ++
        " covering recent advances in the specified research area (2023-2025)." :=
  (C9_summary_text 3 2).2.1 (by decide) (by decide)

/-! ## Claim theorems: persistence -/

/-- C7: on storage failure both save operations leave the stored rows
unchanged and re-raise the error; on success each appends exactly one
new row after the existing ones (never updating or deleting them) and
returns its record id. -/
theorem C7_persistence_append_only (st : Store) (sid q ct d dn cm now : String) (f : Json) :
    ((save_research st sid q ct f true).2 = st ∧
      (save_research st sid q ct f true).1 = .error "storage failure") ∧
    ((save_research st sid q ct f false).2.rows =
        st.rows ++ [⟨st.next_id, sid, q, ct, dumps f⟩] ∧
      (save_research st sid q ct f false).1 = .ok st.next_id) ∧
    ((save_doctor_review st sid d dn cm now true).2 = st ∧
      (save_doctor_review st sid d dn cm now true).1 = .error "storage failure") ∧
    ((save_doctor_review st sid d dn cm now false).2.rows =
        st.rows ++ [⟨st.next_id, sid, "Physician Review", "clinical_decision",
          dumps (.obj [("decision", .str d), ("doctor", .str dn),
            ("comment", .str cm), ("timestamp", .str now)])⟩] ∧
      (save_doctor_review st sid d dn cm now false).1 = .ok st.next_id) :=
  ⟨⟨rfl, rfl⟩, ⟨rfl, rfl⟩, ⟨rfl, rfl⟩, ⟨rfl, rfl⟩⟩

/-! ## Round-trip lemmas for the JSON serializer -/

/-- Hexadecimal digits decode to their value. -/
theorem parseHexDigit_hexDigitChar {n : ℕ} (h : n < 16) :
    parseHexDigit (hexDigitChar n) = some n := by
  interval_cases n <;> decide

/-- Decimal digit characters have the expected code. -/
theorem digitChar_toNat {d : ℕ} (h : d < 10) : (digitChar d).toNat = 48 + d := by
  interval_cases d <;> decide

/-- Parsing the escaped body of a string recovers the characters. -/
theorem parseStringBody_escape (cs : List Char) (rest : List Char) :
    parseStringBody (cs.flatMap escapeChar ++ '"' :: rest) = some (cs, rest) := by
  induction cs with
  | nil =>
    rw [List.flatMap_nil, List.nil_append, parseStringBody.eq_def]
    simp
  | cons c cs ih =>
    rw [List.flatMap_cons, List.append_assoc]
    by_cases h1 : c = '"'
    · subst h1
      rw [show escapeChar '"' = ['\\', '"'] from by decide]
      simp only [List.cons_append, List.nil_append]
      rw [parseStringBody.eq_def]
      simp [ih]
    · by_cases h2 : c = '\\'
      · subst h2
        rw [show escapeChar '\\' = ['\\', '\\'] from by decide]
        simp only [List.cons_append, List.nil_append]
        rw [parseStringBody.eq_def]
        simp [ih]
      · by_cases h3 : c = '\n'
        · subst h3
          rw [show escapeChar '\n' = ['\\', 'n'] from by decide]
          simp only [List.cons_append, List.nil_append]
          rw [parseStringBody.eq_def]
          simp [ih]
        · by_cases h4 : c = '\r'
          · subst h4
            rw [show escapeChar '\r' = ['\\', 'r'] from by decide]
            simp only [List.cons_append, List.nil_append]
            rw [parseStringBody.eq_def]
            simp [ih]
          · by_cases h5 : c = '\t'
            · subst h5
              rw [show escapeChar '\t' = ['\\', 't'] from by decide]
              simp only [List.cons_append, List.nil_append]
              rw [parseStringBody.eq_def]
              simp [ih]
            · by_cases h6 : c = Char.ofNat 8
              · subst h6
                rw [show escapeChar (Char.ofNat 8) = ['\\', 'b'] from by decide]
                simp only [List.cons_append, List.nil_append]
                rw [parseStringBody.eq_def]
                simp [ih]
              · by_cases h7 : c = Char.ofNat 12
                · subst h7
                  rw [show escapeChar (Char.ofNat 12) = ['\\', 'f'] from by decide]
                  simp only [List.cons_append, List.nil_append]
                  rw [parseStringBody.eq_def]
                  simp [ih]
                · by_cases h8 : c.toNat < 32
                  · rw [escapeChar, if_neg h1, if_neg h2, if_neg h3, if_neg h4, if_neg h5,
                      if_neg h6, if_neg h7, if_pos h8]
                    have hdiv : c.toNat / 16 < 16 := by omega
                    have hmod : c.toNat % 16 < 16 := by omega
                    have key : Char.ofNat (c.toNat / 16 * 16 + c.toNat % 16) = c := by
                      rw [show c.toNat / 16 * 16 + c.toNat % 16 = c.toNat from by omega,
                        Char.ofNat_toNat]
                    simp only [List.cons_append, List.nil_append]
                    rw [parseStringBody.eq_def]
                    simp [parseHexDigit_hexDigitChar hdiv, parseHexDigit_hexDigitChar hmod,
                      show parseHexDigit '0' = some 0 from by decide, ih, key]
                  · rw [escapeChar, if_neg h1, if_neg h2, if_neg h3, if_neg h4, if_neg h5,
                      if_neg h6, if_neg h7, if_neg h8]
                    simp only [List.cons_append, List.nil_append]
                    rw [parseStringBody.eq_def]
                    simp [h1, h2, ih]

/-- The fuel-based digit extractor agrees with `Nat.digits 10`. -/
theorem natDigitsAux_eq_digits :
    ∀ (fuel n : ℕ), n ≤ fuel → natDigitsAux fuel n = Nat.digits 10 n := by
  intro fuel
  induction fuel with
  | zero =>
    intro n hn
    interval_cases n
    simp [natDigitsAux]
  | succ fuel ih =>
    intro n hn
    rw [natDigitsAux]
    by_cases h0 : n = 0
    · subst h0; simp
    · rw [if_neg h0, ih (n / 10) (by omega),
        ← Nat.digits_def' (by norm_num : 1 < 10) (Nat.pos_of_ne_zero h0)]

/-- The digit list used by the printer is `Nat.digits 10`. -/
theorem natDigits_eq_digits (n : ℕ) : natDigits n = Nat.digits 10 n :=
  natDigitsAux_eq_digits n n le_rfl

/-- The greedy digit scanner consumes exactly a printed digit list when
the remainder does not start with a digit. -/
theorem parseDigits_map_digitChar (ds : List ℕ) (rest : List Char)
    (hd : ∀ d ∈ ds, d < 10) (hr : sepStart rest) :
    parseDigits (ds.map digitChar ++ rest) = (ds, rest) := by
  induction ds with
  | nil =>
    cases rest with
    | nil => rfl
    | cons c t =>
      rw [List.map_nil, List.nil_append, parseDigits.eq_def]
      dsimp only
      rw [if_neg hr]
  | cons d ds ih =>
    have hd0 : d < 10 := hd d (List.mem_cons_self d ds)
    rw [List.map_cons, List.cons_append, parseDigits.eq_def]
    dsimp only
    rw [if_pos (show isDigitChar (digitChar d) from by
      unfold isDigitChar; rw [digitChar_toNat hd0]; omega)]
    rw [ih (fun x hx => hd x (List.mem_cons_of_mem _ hx))]
    rw [digitChar_toNat hd0]
    simp

/-- Parsing a printed natural number recovers it. -/
theorem parseNat_natChars (n : ℕ) (rest : List Char) (hr : sepStart rest) :
    parseNat (natChars n ++ rest) = some (n, rest) := by
  by_cases h0 : n = 0
  · subst h0
    rw [show natChars 0 = [0].map digitChar from rfl, parseNat,
      parseDigits_map_digitChar [0] rest (by simp) hr]
    simp [Nat.ofDigits]
  · rw [natChars, if_neg h0, natDigits_eq_digits, parseNat,
      parseDigits_map_digitChar _ rest
        (fun d hd => Nat.digits_lt_base (by norm_num) (List.mem_reverse.mp hd)) hr]
    obtain ⟨d, l, hdl⟩ : ∃ d l, (Nat.digits 10 n).reverse = d :: l := by
      rcases hrev : (Nat.digits 10 n).reverse with _ | ⟨d, l⟩
      · exfalso
        have h2 := congrArg List.reverse hrev
        simp only [List.reverse_reverse, List.reverse_nil] at h2
        exact absurd h2 (Nat.digits_ne_nil_iff_ne_zero.mpr h0)
      · exact ⟨d, l, rfl⟩
    rw [hdl]
    dsimp only
    rw [← hdl, List.reverse_reverse, Nat.ofDigits_digits]

/-- A printed natural number starts with a digit character. -/
theorem natChars_head (m : ℕ) : ∃ c t, natChars m = c :: t ∧ isDigitChar c := by
  by_cases h0 : m = 0
  · exact ⟨'0', [], by rw [h0]; rfl, by decide⟩
  · rw [natChars, if_neg h0, natDigits_eq_digits]
    rcases hrev : (Nat.digits 10 m).reverse with _ | ⟨d, l⟩
    · exfalso
      have h2 := congrArg List.reverse hrev
      simp only [List.reverse_reverse, List.reverse_nil] at h2
      exact absurd h2 (Nat.digits_ne_nil_iff_ne_zero.mpr h0)
    · have hd10 : d < 10 := Nat.digits_lt_base (by norm_num)
        (List.mem_reverse.mp (by rw [hrev]; exact List.mem_cons_self d l))
      exact ⟨digitChar d, l.map digitChar, by rw [List.map_cons],
        by unfold isDigitChar; rw [digitChar_toNat hd10]; omega⟩

set_option maxHeartbeats 2000000 in
/-- Parsing a printed integer recovers it (for any nonzero fuel). -/
theorem parseValue_intChars (fuel : ℕ) (n : ℤ) (rest : List Char) (hr : sepStart rest) :
    parseValue (fuel + 1) (intChars n ++ rest) = some (.num n, rest) := by
  obtain ⟨c, t, hct, hdig⟩ := natChars_head n.natAbs
  have hcn : ¬c = 'n' := fun h => by subst h; exact absurd hdig (by decide)
  have hctt : ¬c = 't' := fun h => by subst h; exact absurd hdig (by decide)
  have hcf : ¬c = 'f' := fun h => by subst h; exact absurd hdig (by decide)
  have hcq : ¬c = '"' := fun h => by subst h; exact absurd hdig (by decide)
  have hcb : ¬c = '[' := fun h => by subst h; exact absurd hdig (by decide)
  have hclc : ¬c = lcurly := fun h => by subst h; exact absurd hdig (by decide)
  have hcm : ¬c = '-' := fun h => by subst h; exact absurd hdig (by decide)
  have hp := parseNat_natChars n.natAbs rest hr
  rcases lt_or_ge n 0 with hn | hn
  · rw [intChars, if_pos hn, List.cons_append, parseValue.eq_def]
    dsimp only
    rw [if_neg (by decide : ¬('-' : Char) = 'n'), if_neg (by decide : ¬('-' : Char) = 't'),
      if_neg (by decide : ¬('-' : Char) = 'f'), if_neg (by decide : ¬('-' : Char) = '"'),
      if_neg (by decide : ¬('-' : Char) = '['), if_neg (by decide : ¬('-' : Char) = lcurly),
      if_pos (rfl : ('-' : Char) = '-'), hp]
    simp only [Option.map_some', Option.some.injEq, Prod.mk.injEq, Json.num.injEq]
    exact ⟨by omega, trivial⟩
  · rw [intChars, if_neg (not_lt.mpr hn), hct, List.cons_append, parseValue.eq_def]
    rw [hct, List.cons_append] at hp
    dsimp only
    rw [if_neg hcn, if_neg hctt, if_neg hcf, if_neg hcq, if_neg hcb, if_neg hclc,
      if_neg hcm, if_pos hdig, hp]
    simp only [Option.map_some', Option.some.injEq, Prod.mk.injEq, Json.num.injEq]
    exact ⟨by omega, trivial⟩

/-- A printed integer is never the empty character list. -/
theorem intChars_length_pos (n : ℤ) : 1 ≤ (intChars n).length := by
  rcases lt_or_ge n 0 with hn | hn
  · rw [intChars, if_pos hn]
    simp
  · obtain ⟨c, t, hct, _⟩ := natChars_head n.natAbs
    rw [intChars, if_neg (not_lt.mpr hn), hct]
    simp

/-- The serialized form of a value starts with a character other than
the closing square bracket. -/
theorem dumpChars_head (j : Json) : ∃ c t, dumpChars j = c :: t ∧ c ≠ ']' := by
  cases j with
  | null => exact ⟨'n', _, rfl, by decide⟩
  | bool b =>
    cases b
    · exact ⟨'f', _, rfl, by decide⟩
    · exact ⟨'t', _, rfl, by decide⟩
  | num n =>
    rcases lt_or_ge n 0 with hn | hn
    · exact ⟨'-', _, by rw [show dumpChars (Json.num n) = intChars n from rfl,
        intChars, if_pos hn], by decide⟩
    · obtain ⟨c, t, hct, hdig⟩ := natChars_head n.natAbs
      exact ⟨c, t, by rw [show dumpChars (Json.num n) = intChars n from rfl,
        intChars, if_neg (not_lt.mpr hn), hct],
        fun h => by subst h; exact absurd hdig (by decide)⟩
  | str s => exact ⟨'"', _, rfl, by decide⟩
  | arr es => exact ⟨'[', _, rfl, by decide⟩
  | obj fs => exact ⟨lcurly, _, rfl, by decide⟩

/-- Serialized nonempty element lists start with the first element. -/
theorem dumpElems_head (e : Json) (es : List Json) :
    ∃ c t, dumpElems (e :: es) = c :: t ∧ c ≠ ']' := by
  obtain ⟨c, t, hct, hc⟩ := dumpChars_head e
  cases es with
  | nil => exact ⟨c, t, by rw [show dumpElems [e] = dumpChars e from rfl, hct], hc⟩
  | cons e2 es2 =>
    exact ⟨c, t ++ ',' :: ' ' :: dumpElems (e2 :: es2),
      by rw [show dumpElems (e :: e2 :: es2)
          = dumpChars e ++ ',' :: ' ' :: dumpElems (e2 :: es2) from rfl, hct,
        List.cons_append], hc⟩

/-- The parsing fuel needed for a value is bounded by the length of its
serialized form. -/
theorem fuel_le_length : ∀ N : ℕ,
    (∀ j : Json, sizeOf j ≤ N → fval j ≤ (dumpChars j).length) ∧
    (∀ es : List Json, sizeOf es ≤ N → felems es ≤ (dumpElems es).length + 1) ∧
    (∀ fs : List (String × Json), sizeOf fs ≤ N →
      ffields fs ≤ (dumpFields fs).length + 1) := by
  intro N
  induction N with
  | zero =>
    refine ⟨fun j hj => absurd hj ?_, fun es hes => absurd hes ?_, fun fs hfs => absurd hfs ?_⟩
    · cases j <;> simp
    · cases es <;> simp
    · cases fs <;> simp
  | succ N ih =>
    obtain ⟨ihv, ihe, ihf⟩ := ih
    refine ⟨fun j hj => ?_, fun es hes => ?_, fun fs hfs => ?_⟩
    · cases j with
      | null =>
        rw [show fval Json.null = 1 from rfl,
          show dumpChars Json.null = ['n', 'u', 'l', 'l'] from rfl]
        simp
      | bool b =>
        cases b
        · rw [show fval (Json.bool false) = 1 from rfl,
            show dumpChars (Json.bool false) = ['f', 'a', 'l', 's', 'e'] from rfl]
          simp
        · rw [show fval (Json.bool true) = 1 from rfl,
            show dumpChars (Json.bool true) = ['t', 'r', 'u', 'e'] from rfl]
          simp
      | num n =>
        have := intChars_length_pos n
        rw [show fval (Json.num n) = 1 from rfl,
          show dumpChars (Json.num n) = intChars n from rfl]
        omega
      | str s =>
        rw [show fval (Json.str s) = 1 from rfl,
          show dumpChars (Json.str s) = encodeStringChars s from rfl, encodeStringChars]
        simp
      | arr es =>
        have hs : sizeOf es ≤ N := by
          simp only [Json.arr.sizeOf_spec] at hj
          omega
        have he := ihe es hs
        rw [show fval (Json.arr es) = 1 + felems es from rfl,
          show dumpChars (Json.arr es) = '[' :: (dumpElems es ++ [']']) from rfl]
        simp only [List.length_cons, List.length_append, List.length_singleton]
        omega
      | obj fs =>
        have hs : sizeOf fs ≤ N := by
          simp only [Json.obj.sizeOf_spec] at hj
          omega
        have hf := ihf fs hs
        rw [show fval (Json.obj fs) = 1 + ffields fs from rfl,
          show dumpChars (Json.obj fs) = lcurly :: (dumpFields fs ++ [rcurly]) from rfl]
        simp only [List.length_cons, List.length_append, List.length_singleton]
        omega
    · cases es with
      | nil =>
        rw [show felems [] = 0 from rfl]
        omega
      | cons e es2 =>
        have hse : sizeOf e ≤ N := by
          simp only [List.cons.sizeOf_spec] at hes
          omega
        have hv := ihv e hse
        cases es2 with
        | nil =>
          rw [show felems [e] = 1 + fval e + 0 from rfl,
            show dumpElems [e] = dumpChars e from rfl]
          omega
        | cons e3 es3 =>
          have hs3 : sizeOf (e3 :: es3) ≤ N := by
            simp only [List.cons.sizeOf_spec] at hes ⊢
            omega
          have he := ihe (e3 :: es3) hs3
          rw [show felems (e :: e3 :: es3) = 1 + fval e + felems (e3 :: es3) from rfl,
            show dumpElems (e :: e3 :: es3)
              = dumpChars e ++ ',' :: ' ' :: dumpElems (e3 :: es3) from rfl]
          simp only [List.length_append, List.length_cons]
          omega
    · cases fs with
      | nil =>
        rw [show ffields [] = 0 from rfl]
        omega
      | cons kv fs2 =>
        obtain ⟨k, v⟩ := kv
        have hsv : sizeOf v ≤ N := by
          simp only [List.cons.sizeOf_spec, Prod.mk.sizeOf_spec] at hfs
          omega
        have hv := ihv v hsv
        cases fs2 with
        | nil =>
          rw [show ffields [(k, v)] = 1 + fval v + 0 from rfl,
            show dumpFields [(k, v)]
              = encodeStringChars k ++ ':' :: ' ' :: dumpChars v from rfl]
          simp only [List.length_append, List.length_cons]
          omega
        | cons kv3 fs3 =>
          have hs3 : sizeOf (kv3 :: fs3) ≤ N := by
            simp only [List.cons.sizeOf_spec, Prod.mk.sizeOf_spec] at hfs ⊢
            omega
          have hf := ihf (kv3 :: fs3) hs3
          rw [show ffields ((k, v) :: kv3 :: fs3) = 1 + fval v + ffields (kv3 :: fs3) from rfl,
            show dumpFields ((k, v) :: kv3 :: fs3)
              = encodeStringChars k ++ ':' :: ' ' :: dumpChars v
                ++ ',' :: ' ' :: dumpFields (kv3 :: fs3) from rfl]
          simp only [List.length_append, List.length_cons]
          omega

/-- Parser step: null literal. -/
theorem parseValue_step_null (f : ℕ) (r : List Char) :
    parseValue (f + 1) ('n' :: 'u' :: 'l' :: 'l' :: r) = some (.null, r) := rfl

/-- Parser step: true literal. -/
theorem parseValue_step_true (f : ℕ) (r : List Char) :
    parseValue (f + 1) ('t' :: 'r' :: 'u' :: 'e' :: r) = some (.bool true, r) := rfl

/-- Parser step: false literal. -/
theorem parseValue_step_false (f : ℕ) (r : List Char) :
    parseValue (f + 1) ('f' :: 'a' :: 'l' :: 's' :: 'e' :: r) = some (.bool false, r) := rfl

/-- Parser step: string literal. -/
theorem parseValue_step_str (f : ℕ) (r : List Char) :
    parseValue (f + 1) ('"' :: r)
      = (parseStringBody r).map fun p => (.str (String.mk p.1), p.2) := rfl

/-- Parser step: empty array. -/
theorem parseValue_step_arr_nil (f : ℕ) (r : List Char) :
    parseValue (f + 1) ('[' :: ']' :: r) = some (.arr [], r) := rfl

/-- Parser step: empty object. -/
theorem parseValue_step_obj_nil (f : ℕ) (r : List Char) :
    parseValue (f + 1) (lcurly :: rcurly :: r) = some (.obj [], r) := rfl

/-- Parser step: nonempty array defers to the element parser. -/
theorem parseValue_step_arr_cons (f : ℕ) (c : Char) (r : List Char) (hc : c ≠ ']') :
    parseValue (f + 1) ('[' :: c :: r)
      = (parseElems f (c :: r)).map fun p => (.arr p.1, p.2) := by
  rw [parseValue.eq_def]
  dsimp only
  rw [if_neg (by decide : ¬('[' : Char) = 'n'), if_neg (by decide : ¬('[' : Char) = 't'),
    if_neg (by decide : ¬('[' : Char) = 'f'), if_neg (by decide : ¬('[' : Char) = '"'),
    if_pos (rfl : ('[' : Char) = '[')]
  split
  · next r2 heq =>
    exact absurd (List.cons.inj heq).1 hc
  · next => rfl

/-- Parser step: nonempty object defers to the field parser. -/
theorem parseValue_step_obj_cons (f : ℕ) (c : Char) (r : List Char) (hc : c ≠ rcurly) :
    parseValue (f + 1) (lcurly :: c :: r)
      = (parseFields f (c :: r)).map fun p => (.obj p.1, p.2) := by
  rw [show parseValue (f + 1) (lcurly :: c :: r) = if c = rcurly then some (.obj [], r)
      else (parseFields f (c :: r)).map (fun p => (.obj p.1, p.2)) from rfl, if_neg hc]

/-- Element-parser step: last element before the closing bracket. -/
theorem parseElems_step_last (f : ℕ) (cs : List Char) (v : Json) (r2 : List Char)
    (h : parseValue f cs = some (v, ']' :: r2)) :
    parseElems (f + 1) cs = some ([v], r2) := by
  rw [parseElems.eq_def]
  dsimp only
  rw [h]
  exact rfl

/-- Element-parser step: an element followed by a separator. -/
theorem parseElems_step_cons (f : ℕ) (cs : List Char) (v : Json) (r2 : List Char)
    (vs : List Json) (r3 : List Char)
    (h1 : parseValue f cs = some (v, ',' :: ' ' :: r2))
    (h2 : parseElems f r2 = some (vs, r3)) :
    parseElems (f + 1) cs = some (v :: vs, r3) := by
  rw [parseElems.eq_def]
  dsimp only
  rw [h1]
  simp only [h2, Option.map_some']

/-- Field-parser step: last field before the closing bracket. -/
theorem parseFields_step_last (f : ℕ) (cs1 : List Char) (kcs : List Char) (v : Json)
    (r2 r3 : List Char)
    (hs : parseStringBody cs1 = some (kcs, ':' :: ' ' :: r2))
    (hv : parseValue f r2 = some (v, rcurly :: r3)) :
    parseFields (f + 1) ('"' :: cs1) = some ([(String.mk kcs, v)], r3) := by
  rw [parseFields.eq_def]
  dsimp only
  simp only [hs, hv]
  rfl

/-- Field-parser step: a field followed by a separator. -/
theorem parseFields_step_cons (f : ℕ) (cs1 : List Char) (kcs : List Char) (v : Json)
    (r2 r3 : List Char) (kvs : List (String × Json)) (r4 : List Char)
    (hs : parseStringBody cs1 = some (kcs, ':' :: ' ' :: r2))
    (hv : parseValue f r2 = some (v, ',' :: ' ' :: r3))
    (hf : parseFields f r3 = some (kvs, r4)) :
    parseFields (f + 1) ('"' :: cs1) = some ((String.mk kcs, v) :: kvs, r4) := by
  rw [parseFields.eq_def]
  dsimp only
  simp only [hs, hv, hf, Option.map_some']

/-- Every value needs at least one unit of fuel. -/
theorem fval_pos (j : Json) : 1 ≤ fval j := by
  cases j
  case null => exact le_refl 1
  case bool b => exact le_refl 1
  case num n => exact le_refl 1
  case str s => exact le_refl 1
  case arr es => exact Nat.le_add_right 1 (felems es)
  case obj fs => exact Nat.le_add_right 1 (ffields fs)

set_option maxHeartbeats 2000000 in
/-- With enough fuel, parsing the serialized form of a value yields the
value back together with the untouched remainder; likewise for element
lists and field lists with their closing bracket. -/
theorem parse_dump : ∀ N : ℕ,
    (∀ (j : Json) (rest : List Char), fval j ≤ N → sepStart rest →
      parseValue N (dumpChars j ++ rest) = some (j, rest)) ∧
    (∀ (e : Json) (es : List Json) (rest : List Char), felems (e :: es) ≤ N →
      parseElems N (dumpElems (e :: es) ++ ']' :: rest) = some (e :: es, rest)) ∧
    (∀ (k : String) (v : Json) (fs : List (String × Json)) (rest : List Char),
      ffields ((k, v) :: fs) ≤ N →
      parseFields N (dumpFields ((k, v) :: fs) ++ rcurly :: rest)
        = some ((k, v) :: fs, rest)) := by
  intro N
  induction N with
  | zero =>
    refine ⟨fun j rest hj _ => ?_, fun e es rest he => ?_, fun k v fs rest hfs => ?_⟩
    · exact absurd hj (by have := fval_pos j; omega)
    · exact absurd he (by
        rw [show felems (e :: es) = 1 + fval e + felems es from rfl]
        omega)
    · exact absurd hfs (by
        rw [show ffields ((k, v) :: fs) = 1 + fval v + ffields fs from rfl]
        omega)
  | succ N ih =>
    obtain ⟨ihv, ihe, ihf⟩ := ih
    refine ⟨fun j rest hj hr => ?_, fun e es rest he => ?_, fun k v fs rest hfs => ?_⟩
    · cases j with
      | null => exact parseValue_step_null N rest
      | bool b =>
        cases b
        · exact parseValue_step_false N rest
        · exact parseValue_step_true N rest
      | num n => exact parseValue_intChars N n rest hr
      | str s =>
        have h1 : dumpChars (Json.str s) ++ rest
            = '"' :: (s.data.flatMap escapeChar ++ '"' :: rest) := by
          rw [show dumpChars (Json.str s) = encodeStringChars s from rfl, encodeStringChars]
          simp [List.append_assoc]
        rw [h1, parseValue_step_str, parseStringBody_escape]
        exact rfl
      | arr es =>
        cases es with
        | nil => exact parseValue_step_arr_nil N rest
        | cons e es2 =>
          obtain ⟨c0, t0, h0, hc0⟩ := dumpElems_head e es2
          have hfe : felems (e :: es2) ≤ N := by
            rw [show fval (Json.arr (e :: es2)) = 1 + felems (e :: es2) from rfl] at hj
            omega
          have h1 : dumpChars (Json.arr (e :: es2)) ++ rest
              = '[' :: (dumpElems (e :: es2) ++ ']' :: rest) := by
            rw [show dumpChars (Json.arr (e :: es2))
                = '[' :: (dumpElems (e :: es2) ++ [']']) from rfl]
            simp [List.append_assoc]
          rw [h1, h0, List.cons_append, parseValue_step_arr_cons N c0 _ hc0,
            ← List.cons_append, ← h0, ihe e es2 rest hfe]
          exact rfl
      | obj fs =>
        cases fs with
        | nil => exact parseValue_step_obj_nil N rest
        | cons kv fs2 =>
          obtain ⟨k, v⟩ := kv
          have hff : ffields ((k, v) :: fs2) ≤ N := by
            rw [show fval (Json.obj ((k, v) :: fs2))
              = 1 + ffields ((k, v) :: fs2) from rfl] at hj
            omega
          have hfld : ∃ t, dumpFields ((k, v) :: fs2) = '"' :: t := by
            cases fs2 with
            | nil =>
              refine ⟨k.data.flatMap escapeChar ++ '"' :: ':' :: ' ' :: dumpChars v, ?_⟩
              rw [show dumpFields [(k, v)]
                  = encodeStringChars k ++ ':' :: ' ' :: dumpChars v from rfl,
                encodeStringChars]
              simp [List.append_assoc]
            | cons kv3 fs3 =>
              refine ⟨k.data.flatMap escapeChar ++ '"' :: ':' :: ' ' :: dumpChars v
                ++ ',' :: ' ' :: dumpFields (kv3 :: fs3), ?_⟩
              rw [show dumpFields ((k, v) :: kv3 :: fs3)
                  = encodeStringChars k ++ ':' :: ' ' :: dumpChars v
                    ++ ',' :: ' ' :: dumpFields (kv3 :: fs3) from rfl, encodeStringChars]
              simp [List.append_assoc]
          obtain ⟨tf, htf⟩ := hfld
          have h1 : dumpChars (Json.obj ((k, v) :: fs2)) ++ rest
              = lcurly :: '"' :: (tf ++ rcurly :: rest) := by
            rw [show dumpChars (Json.obj ((k, v) :: fs2))
                = lcurly :: (dumpFields ((k, v) :: fs2) ++ [rcurly]) from rfl, htf]
            simp [List.append_assoc]
          have h2 : ('"' : Char) :: (tf ++ rcurly :: rest)
              = dumpFields ((k, v) :: fs2) ++ rcurly :: rest := by
            rw [htf, List.cons_append]
          rw [h1, parseValue_step_obj_cons N '"' _ (by decide), h2,
            ihf k v fs2 rest hff]
          exact rfl
    · have hfe : fval e ≤ N := by
        rw [show felems (e :: es) = 1 + fval e + felems es from rfl] at he
        omega
      cases es with
      | nil =>
        refine parseElems_step_last N _ e rest ?_
        rw [show dumpElems [e] = dumpChars e from rfl]
        exact ihv e (']' :: rest) hfe (by decide : ¬isDigitChar ']')
      | cons e2 es2 =>
        have hfe2 : felems (e2 :: es2) ≤ N := by
          rw [show felems (e :: e2 :: es2) = 1 + fval e + felems (e2 :: es2) from rfl] at he
          omega
        have hsplit : dumpElems (e :: e2 :: es2) ++ ']' :: rest
            = dumpChars e ++ ',' :: ' ' :: (dumpElems (e2 :: es2) ++ ']' :: rest) := by
          rw [show dumpElems (e :: e2 :: es2)
              = dumpChars e ++ ',' :: ' ' :: dumpElems (e2 :: es2) from rfl]
          simp [List.append_assoc]
        rw [hsplit]
        exact parseElems_step_cons N _ e _ (e2 :: es2) rest
          (ihv e _ hfe (by decide : ¬isDigitChar ','))
          (ihe e2 es2 rest hfe2)
    · have hfv : fval v ≤ N := by
        rw [show ffields ((k, v) :: fs) = 1 + fval v + ffields fs from rfl] at hfs
        omega
      cases fs with
      | nil =>
        have hsplit : dumpFields [(k, v)] ++ rcurly :: rest
            = '"' :: (k.data.flatMap escapeChar
              ++ '"' :: (':' :: ' ' :: (dumpChars v ++ rcurly :: rest))) := by
          rw [show dumpFields [(k, v)]
              = encodeStringChars k ++ ':' :: ' ' :: dumpChars v from rfl, encodeStringChars]
          simp [List.append_assoc]
        rw [hsplit]
        have hres := parseFields_step_last N _ k.data v _ rest
          (parseStringBody_escape k.data (':' :: ' ' :: (dumpChars v ++ rcurly :: rest)))
          (ihv v _ hfv (by decide : ¬isDigitChar rcurly))
        rw [hres]
      | cons kv3 fs3 =>
        obtain ⟨k3, v3⟩ := kv3
        have hff3 : ffields ((k3, v3) :: fs3) ≤ N := by
          rw [show ffields ((k, v) :: (k3, v3) :: fs3)
              = 1 + fval v + ffields ((k3, v3) :: fs3) from rfl] at hfs
          omega
        have hsplit : dumpFields ((k, v) :: (k3, v3) :: fs3) ++ rcurly :: rest
            = '"' :: (k.data.flatMap escapeChar
              ++ '"' :: (':' :: ' ' :: (dumpChars v
                ++ ',' :: ' ' :: (dumpFields ((k3, v3) :: fs3) ++ rcurly :: rest)))) := by
          rw [show dumpFields ((k, v) :: (k3, v3) :: fs3)
              = encodeStringChars k ++ ':' :: ' ' :: dumpChars v
                ++ ',' :: ' ' :: dumpFields ((k3, v3) :: fs3) from rfl, encodeStringChars]
          simp [List.append_assoc]
        rw [hsplit]
        have hres := parseFields_step_cons N _ k.data v _ _ ((k3, v3) :: fs3) rest
          (parseStringBody_escape k.data (':' :: ' ' :: (dumpChars v
            ++ ',' :: ' ' :: (dumpFields ((k3, v3) :: fs3) ++ rcurly :: rest))))
          (ihv v _ hfv (by decide : ¬isDigitChar ','))
          (ihf k3 v3 fs3 rest hff3)
        rw [hres]

/-- The deserializer is a left inverse of the serializer on the modelled
value space. -/
theorem loads_dumps (j : Json) : loads (dumps j) = some j := by
  have hb := (fuel_le_length (sizeOf j)).1 j le_rfl
  have hp := (parse_dump ((dumpChars j).length + 1)).1 j [] (by omega) trivial
  rw [List.append_nil] at hp
  rw [loads, dumps]
  rw [show (String.mk (dumpChars j)).length = (dumpChars j).length from rfl,
    show (String.mk (dumpChars j)).data = dumpChars j from rfl, hp]

/-- A serialized value is never the empty string. -/
theorem dumps_ne_empty (j : Json) : dumps j ≠ "" := by
  obtain ⟨c, t, hct, _⟩ := dumpChars_head j
  rw [dumps, hct]
  exact fun h => List.noConfusion (congrArg String.data h)

/-! ## Claim theorems: persistence round trip -/

/-- C8 counterexample: when a row with the same session identifier is
already stored, saving a new findings payload and reading back by that
identifier returns the old findings, not the payload just saved; the
save itself succeeds. -/
theorem C8_round_trip_counterexample :
    (save_research
        ⟨[⟨1, "melanoma_workflow_2025", "q0", "melanoma", dumps (.num 1)⟩], 2⟩
        "melanoma_workflow_2025" "q1" "melanoma" (.num 2) false).1 = .ok 2 ∧
    Option.map SessionView.findings
      (get_session (save_research
        ⟨[⟨1, "melanoma_workflow_2025", "q0", "melanoma", dumps (.num 1)⟩], 2⟩
        "melanoma_workflow_2025" "q1" "melanoma" (.num 2) false).2
        "melanoma_workflow_2025") = some (some (.num 1)) ∧
    Json.num 1 ≠ Json.num 2 := by
  refine ⟨rfl, rfl, ?_⟩
  intro h
  simp at h

/-- C8 amended: if no stored row carries the session identifier before
the save, then saving a findings payload and reading it back by that
identifier returns exactly the payload: deserialization undoes
serialization. -/
theorem C8_round_trip_amended (st : Store) (sid q ct : String) (payload : Json)
    (hfresh : ∀ r ∈ st.rows, r.session_id ≠ sid) :
    Option.map SessionView.findings
      (get_session (save_research st sid q ct payload false).2 sid)
      = some (some payload) := by
  have hnone : st.rows.find? (fun r => r.session_id == sid) = none := by
    rw [List.find?_eq_none]
    intro r hr
    simp [hfresh r hr]
  rw [show (save_research st sid q ct payload false).2
      = ⟨st.rows ++ [⟨st.next_id, sid, q, ct, dumps payload⟩], st.next_id + 1⟩ from rfl]
  rw [get_session]
  rw [List.find?_append, hnone]
  rw [List.find?_cons_of_pos _ (by simp)]
  simp only [Option.none_or, Option.map_some']
  rw [if_neg (dumps_ne_empty payload), loads_dumps]

/-- Witness for the amended C8 on a fresh store with a structured
payload. -/
theorem C8_round_trip_amended_witness :
    Option.map SessionView.findings
      (get_session (save_research ⟨[], 1⟩ "s1" "q" "melanoma"
        (.obj [("p_value", .str "0.03"), ("total_papers", .num 18)]) false).2 "s1")
      = some (some (.obj [("p_value", .str "0.03"), ("total_papers", .num 18)])) :=
  C8_round_trip_amended ⟨[], 1⟩ "s1" "q" "melanoma"
    (.obj [("p_value", .str "0.03"), ("total_papers", .num 18)]) (by simp)

end CancerResearch
